import Mathlib

/-!
Shallow embedding of the realtime voice-session core of `src/App.tsx`
(plus `src/types.ts`): the playback scheduler, the transcription
aggregator, the session state machine handlers (`onmessage`, `onerror`,
`stopAudio`, `handleStopSession`) and the conversation log.

Modelling conventions:
* The output audio clock (`ctx.currentTime`) and buffer durations are
  rationals; wall-clock timestamps (`Date.now()`) are naturals.
* React refs become fields of an explicit `AppState` record; each event
  handler is a pure state transformer.  `setMessages(prev => ...)` is an
  append to the `messages` field.
* The JS `Set` of `AudioBufferSourceNode`s becomes a list of
  `ScheduledSource` records (insertion order); `sourcesRef.current.add`
  is an append and `.clear()` is `[]`.
* `sessionRef.current` / `audioContextsRef.current` being non-null are
  the booleans `sessionSet` / `ctxSet`.  `handleStopSession` returns,
  besides the new state, the list of `close()` calls it performs on
  those handles, so double-closing is observable.
* A received audio payload either decodes to a buffer of some duration
  (`good d`) or the transport decode throws (`malformed`), in which case
  the async `onmessage` handler aborts at that point.
-/

namespace ZephyrApp

/-- `SessionStatus` from `src/types.ts`. -/
inductive SessionStatus where
  | IDLE
  | CONNECTING
  | ACTIVE
  | ERROR
deriving DecidableEq, Repr

/-- The role tag of a chat message: the string union `'user' | 'model'`. -/
inductive Role where
  | user
  | model
deriving DecidableEq, Repr

/-- `ChatMessage` from `src/types.ts`. -/
structure ChatMessage where
  id : String
  role : Role
  text : String
  timestamp : Nat
deriving DecidableEq, Repr

/-- A scheduled playback source: an `AudioBufferSourceNode` together with
the start time passed to `source.start` and its buffer's duration. -/
structure ScheduledSource where
  startTime : ℚ
  duration : ℚ
deriving DecidableEq, Repr

/-- The mutable state held in the component's refs and React state. -/
structure AppState where
  status : SessionStatus
  messages : List ChatMessage
  sources : List ScheduledSource
  nextStartTime : ℚ
  userBuf : String
  modelBuf : String
  sessionSet : Bool
  ctxSet : Bool
deriving DecidableEq, Repr

/-- Result of decoding a received audio payload: either an audio buffer
with a duration, or `decode`/`decodeAudioData` throwing on malformed
transport text. -/
inductive AudioPayload where
  | good (duration : ℚ)
  | malformed
deriving DecidableEq, Repr

/-- The parts of a `LiveServerMessage` that `onmessage` reads. -/
structure ServerMessage where
  inputTranscription : Option String
  outputTranscription : Option String
  turnComplete : Bool
  audio : Option AudioPayload
  interrupted : Bool
deriving DecidableEq, Repr

/-- JavaScript `String.prototype.trim()` as called on the accumulators
(src/App.tsx lines 82-83): strip leading and trailing whitespace. -/
def jsTrim (s : String) : String :=
  ⟨((s.data.dropWhile Char.isWhitespace).reverse.dropWhile Char.isWhitespace).reverse⟩

/-- `stopAudio` (src/App.tsx lines 38-42): stop every source in the set
(best effort, `try`/`catch` swallowing errors), clear the set, reset the
cursor to `0`. -/
def stopAudio (s : AppState) : AppState :=
  { s with sources := [], nextStartTime := 0 }

/-- The message id built by the template literals `u-${Date.now()}` /
`m-${Date.now()}` (src/App.tsx lines 87-88). -/
def msgId (r : Role) (t : Nat) : String :=
  (match r with
    | Role.user => "u-"
    | Role.model => "m-") ++ toString t

/-- Lines 75-77: append an `inputTranscription` fragment to the user
accumulator. -/
def inputTransStep (m : ServerMessage) (s : AppState) : AppState :=
  match m.inputTranscription with
  | some t => { s with userBuf := s.userBuf ++ t }
  | none => s

/-- Lines 78-80: append an `outputTranscription` fragment to the model
accumulator. -/
def outputTransStep (m : ServerMessage) (s : AppState) : AppState :=
  match m.outputTranscription with
  | some t => { s with modelBuf := s.modelBuf ++ t }
  | none => s

/-- Lines 81-92: on `turnComplete`, trim both accumulators, append a
`ChatMessage` per non-empty one (user before model), reset both
accumulators. `tNow` is `Date.now()`. -/
def turnCompleteStep (tNow : Nat) (m : ServerMessage) (s : AppState) : AppState :=
  if m.turnComplete then
    let uText := jsTrim s.userBuf
    let mText := jsTrim s.modelBuf
    let newMessages :=
      if uText ≠ "" ∨ mText ≠ "" then
        s.messages
          ++ (if uText ≠ "" then
                [⟨msgId Role.user tNow, Role.user, uText, tNow⟩] else [])
          ++ (if mText ≠ "" then
                [⟨msgId Role.model tNow, Role.model, mText, tNow⟩] else [])
      else s.messages
    { s with messages := newMessages, userBuf := "", modelBuf := "" }
  else s

/-- Lines 95-106: if the message carries audio data and the audio
contexts exist, first advance the cursor to
`max(nextStartTime, ctx.currentTime)` (line 98), then decode.  On decode
success, start a source at the cursor, advance the cursor by the
buffer's duration and add the source to the active set; on decode
failure the awaited promise rejects and the rest of the handler is
aborted (second component `true`). `now` is `ctx.currentTime`. -/
def audioStep (now : ℚ) (m : ServerMessage) (s : AppState) : AppState × Bool :=
  match m.audio with
  | none => (s, false)
  | some payload =>
    if s.ctxSet then
      let s1 := { s with nextStartTime := max s.nextStartTime now }
      match payload with
      | AudioPayload.malformed => (s1, true)
      | AudioPayload.good d =>
        ({ s1 with
            sources := s1.sources ++ [⟨s1.nextStartTime, d⟩],
            nextStartTime := s1.nextStartTime + d }, false)
    else (s, false)

/-- Line 107: `if (message.serverContent?.interrupted) stopAudio()`. -/
def interruptedStep (m : ServerMessage) (s : AppState) : AppState :=
  if m.interrupted then stopAudio s else s

/-- The `onmessage` callback (src/App.tsx lines 73-108): transcription
fragments, then the turn boundary, then audio scheduling, then the
interruption flag; a decode failure aborts the handler before the
interruption check. -/
def onmessage (tNow : Nat) (now : ℚ) (m : ServerMessage) (s : AppState) : AppState :=
  let s1 := inputTransStep m s
  let s2 := outputTransStep m s1
  let s3 := turnCompleteStep tNow m s2
  let r := audioStep now m s3
  if r.2 then r.1 else interruptedStep m r.1

/-- The `onerror` callback (lines 109-112): log and set status to
`ERROR`; nothing else is touched. -/
def onerror (s : AppState) : AppState :=
  { s with status := SessionStatus.ERROR }

/-- The `catch` branch of `handleStartSession` (lines 124-128): log, set
status to `ERROR`, alert; nothing else is touched. -/
def handleStartCatch (s : AppState) : AppState :=
  { s with status := SessionStatus.ERROR }

/-- The `onclose` callback (line 113). -/
def onclose (s : AppState) : AppState :=
  { s with status := SessionStatus.IDLE }

/-- A `close()` call performed by `handleStopSession` on an owned
handle. -/
inductive CloseAction where
  | closeSession
  | closeInputCtx
  | closeOutputCtx
deriving DecidableEq, Repr

/-- `handleStopSession` (lines 131-139): close the session if the ref is
set, `stopAudio()`, close both audio contexts if that ref is set, set
status to `IDLE`.  Neither ref is cleared.  Returns the new state and
the `close()` calls made. -/
def handleStopSession (s : AppState) : AppState × List CloseAction :=
  let closes :=
    (if s.sessionSet then [CloseAction.closeSession] else [])
      ++ (if s.ctxSet then [CloseAction.closeInputCtx, CloseAction.closeOutputCtx] else [])
  ({ stopAudio s with status := SessionStatus.IDLE }, closes)

/-- A message carrying only an audio chunk of duration `d`. -/
def audioMsg (d : ℚ) : ServerMessage :=
  ⟨none, none, false, some (AudioPayload.good d), false⟩

/-- A message carrying only the turn-boundary flag. -/
def tcMsg : ServerMessage :=
  ⟨none, none, true, none, false⟩

/-- A message with no fields set. -/
def emptyMsg : ServerMessage :=
  ⟨none, none, false, none, false⟩

/-- The component's initial state (all refs fresh), with the given ref
flags. -/
def initState (sess ctx : Bool) : AppState :=
  ⟨SessionStatus.IDLE, [], [], 0, "", "", sess, ctx⟩

/-- Process a sequence of audio-only messages; each pair is
(`ctx.currentTime` at arrival, buffer duration). -/
def runEnqueues : List (ℚ × ℚ) → AppState → AppState
  | [], s => s
  | p :: rest, s => runEnqueues rest (onmessage 0 p.1 (audioMsg p.2) s)

/-- Adjacency relation between consecutively scheduled sources: the
earlier one ends no later than the later one starts, and start times do
not decrease. -/
def schedR (a b : ScheduledSource) : Prop :=
  a.startTime + a.duration ≤ b.startTime ∧ a.startTime ≤ b.startTime

/-- Every source in the list ends no later than the cursor value `c`. -/
def endsLe (c : ℚ) (l : List ScheduledSource) : Prop :=
  ∀ src ∈ l, src.startTime + src.duration ≤ c

/-! ### Helper lemmas: decimal value of a digit character list

Used to show that the `Date.now()`-derived message ids determine the
timestamp, i.e. that `toString : Nat → String` is injective. -/

/-- The numeric value of a decimal digit character. -/
def charVal (c : Char) : Nat := c.toNat - 48

/-- Read a most-significant-first decimal digit list, continuing from
the accumulated value `acc`. -/
def readAux (acc : Nat) : List Char → Nat
  | [] => acc
  | c :: cs => readAux (10 * acc + charVal c) cs

theorem readAux_nil (acc : Nat) : readAux acc [] = acc := rfl

theorem readAux_cons (acc : Nat) (c : Char) (cs : List Char) :
    readAux acc (c :: cs) = readAux (10 * acc + charVal c) cs := rfl

theorem readAux_append (l1 l2 : List Char) (acc : Nat) :
    readAux acc (l1 ++ l2) = readAux (readAux acc l1) l2 := by
  induction l1 generalizing acc with
  | nil => simp [readAux_nil]
  | cons c cs ih => simp [readAux_cons, ih]

theorem toDigitsCore_fuel : ∀ fuel fuel' n ds, n < fuel → n < fuel' →
    Nat.toDigitsCore 10 fuel n ds = Nat.toDigitsCore 10 fuel' n ds := by
  intro fuel
  induction fuel with
  | zero => intro fuel' n ds h; omega
  | succ f ih =>
    intro fuel' n ds h h'
    cases fuel' with
    | zero => omega
    | succ f' =>
      simp only [Nat.toDigitsCore]
      by_cases h0 : n / 10 = 0
      · simp [h0]
      · simp only [h0, if_false]
        apply ih
        · have := Nat.div_lt_self (by omega : 0 < n) (by omega : 1 < 10); omega
        · have := Nat.div_lt_self (by omega : 0 < n) (by omega : 1 < 10); omega

theorem toDigitsCore_acc : ∀ fuel n ds, n < fuel →
    Nat.toDigitsCore 10 fuel n ds = Nat.toDigitsCore 10 fuel n [] ++ ds := by
  intro fuel
  induction fuel with
  | zero => intro n ds h; omega
  | succ f ih =>
    intro n ds h
    simp only [Nat.toDigitsCore]
    by_cases h0 : n / 10 = 0
    · simp [h0]
    · simp only [h0, if_false]
      have hlt : n / 10 < f := by
        have := Nat.div_lt_self (by omega : 0 < n) (by omega : 1 < 10); omega
      rw [ih _ _ hlt, ih _ ((n % 10).digitChar :: []) hlt]
      simp

theorem toDigits_split (n : Nat) (h : 10 ≤ n) :
    Nat.toDigits 10 n = Nat.toDigits 10 (n / 10) ++ [(n % 10).digitChar] := by
  show Nat.toDigitsCore 10 (n + 1) n [] = _
  simp only [Nat.toDigitsCore]
  have h0 : ¬ (n / 10 = 0) := by omega
  simp only [h0, if_false]
  have h1 : n / 10 < n := Nat.div_lt_self (by omega) (by omega)
  rw [toDigitsCore_fuel n (n / 10 + 1) (n / 10) _ (by omega) (by omega)]
  rw [toDigitsCore_acc _ _ _ (by omega)]
  rfl

theorem toDigits_small (n : Nat) (h : n < 10) :
    Nat.toDigits 10 n = [Nat.digitChar n] := by
  show Nat.toDigitsCore 10 (n + 1) n [] = _
  simp only [Nat.toDigitsCore]
  have h0 : n / 10 = 0 := by omega
  simp [h0, Nat.mod_eq_of_lt h]

theorem charVal_digitChar : ∀ d : Nat, d < 10 → charVal (Nat.digitChar d) = d := by decide

theorem readAux_toDigits (n : Nat) : readAux 0 (Nat.toDigits 10 n) = n := by
  induction n using Nat.strong_induction_on with
  | _ n ih =>
    by_cases h : n < 10
    · rw [toDigits_small n h, readAux_cons, readAux_nil]
      simp [charVal_digitChar n h]
    · rw [toDigits_split n (by omega), readAux_append]
      rw [ih (n / 10) (Nat.div_lt_self (by omega) (by omega))]
      rw [readAux_cons, readAux_nil]
      rw [charVal_digitChar _ (Nat.mod_lt n (by omega))]
      omega

theorem nat_repr_inj {m n : Nat} (h : Nat.repr m = Nat.repr n) : m = n := by
  have hd : Nat.toDigits 10 m = Nat.toDigits 10 n := by
    have := congrArg String.data h
    simpa [Nat.repr, List.asString] using this
  calc m = readAux 0 (Nat.toDigits 10 m) := (readAux_toDigits m).symm
    _ = readAux 0 (Nat.toDigits 10 n) := by rw [hd]
    _ = n := readAux_toDigits n

theorem string_data_inj {a b : String} (h : a.data = b.data) : a = b := by
  cases a; cases b; exact congrArg String.mk h

/-- The message-id constructor determines both the role and the
timestamp. -/
theorem msgId_inj {r1 r2 : Role} {t1 t2 : Nat} (h : msgId r1 t1 = msgId r2 t2) :
    r1 = r2 ∧ t1 = t2 := by
  have hd := congrArg String.data h
  cases r1 <;> cases r2 <;>
    simp only [msgId, String.data_append, toString] at hd
  · exact ⟨rfl, nat_repr_inj (string_data_inj (by simpa using hd))⟩
  · simp at hd
  · simp at hd
  · exact ⟨rfl, nat_repr_inj (string_data_inj (by simpa using hd))⟩

/-! ### Step characterization lemmas -/

theorem inputTransStep_eq (m : ServerMessage) (s : AppState) :
    inputTransStep m s =
      { s with userBuf := s.userBuf ++ (m.inputTranscription.getD "") } := by
  cases h : m.inputTranscription <;> simp [inputTransStep, h]

theorem outputTransStep_eq (m : ServerMessage) (s : AppState) :
    outputTransStep m s =
      { s with modelBuf := s.modelBuf ++ (m.outputTranscription.getD "") } := by
  cases h : m.outputTranscription <;> simp [outputTransStep, h]

theorem turnCompleteStep_preserve (t : Nat) (m : ServerMessage) (s : AppState) :
    (turnCompleteStep t m s).sources = s.sources ∧
    (turnCompleteStep t m s).nextStartTime = s.nextStartTime ∧
    (turnCompleteStep t m s).status = s.status ∧
    (turnCompleteStep t m s).ctxSet = s.ctxSet ∧
    (turnCompleteStep t m s).sessionSet = s.sessionSet := by
  unfold turnCompleteStep
  cases m.turnComplete <;> simp

theorem turnCompleteStep_false (t : Nat) (m : ServerMessage) (s : AppState)
    (h : m.turnComplete = false) : turnCompleteStep t m s = s := by
  simp [turnCompleteStep, h]

theorem audioStep_none (now : ℚ) (m : ServerMessage) (s : AppState)
    (h : m.audio = none) : audioStep now m s = (s, false) := by
  simp [audioStep, h]

theorem audioStep_good (now d : ℚ) (m : ServerMessage) (s : AppState)
    (hm : m.audio = some (AudioPayload.good d)) (hctx : s.ctxSet = true) :
    audioStep now m s =
      ({ s with sources := s.sources ++ [⟨max s.nextStartTime now, d⟩],
                nextStartTime := max s.nextStartTime now + d }, false) := by
  simp [audioStep, hm, hctx]

theorem audioStep_malformed (now : ℚ) (m : ServerMessage) (s : AppState)
    (hm : m.audio = some AudioPayload.malformed) (hctx : s.ctxSet = true) :
    audioStep now m s =
      ({ s with nextStartTime := max s.nextStartTime now }, true) := by
  simp [audioStep, hm, hctx]

theorem interruptedStep_false (m : ServerMessage) (s : AppState)
    (h : m.interrupted = false) : interruptedStep m s = s := by
  simp [interruptedStep, h]

/-- An `onmessage` carrying only a good audio chunk is exactly the
scheduler's `enqueue`: start at `max(cursor, now)`, advance the cursor
by the duration, register the source. -/
theorem enqueue_eq (t : Nat) (now d : ℚ) (s : AppState) (hctx : s.ctxSet = true) :
    onmessage t now (audioMsg d) s =
      { s with sources := s.sources ++ [⟨max s.nextStartTime now, d⟩],
               nextStartTime := max s.nextStartTime now + d } := by
  simp only [onmessage]
  rw [inputTransStep_eq, outputTransStep_eq, turnCompleteStep_false _ _ _ rfl]
  rw [audioStep_good now d (audioMsg d) _ rfl (by simpa using hctx)]
  simp [interruptedStep, audioMsg]

/-! ### Claim theorems -/

/-- C2: `interrupt()` (`stopAudio`) leaves the active set empty and the
cursor at zero, is idempotent, and on an already-empty active set it
only resets the cursor (changing nothing else). -/
theorem c2_interrupt_resets (s : AppState) :
    (stopAudio s).sources = [] ∧
    (stopAudio s).nextStartTime = 0 ∧
    stopAudio (stopAudio s) = stopAudio s ∧
    (s.sources = [] → stopAudio s = { s with nextStartTime := 0 }) := by
  refine ⟨rfl, rfl, rfl, fun h => ?_⟩
  cases s
  simp_all [stopAudio]

/-- C2 witness: `interrupt()` on the fresh (empty-set) state. -/
theorem c2_interrupt_resets_witness :
    ((initState false false).sources = []) ∧
    ((stopAudio (initState false false)).sources = [] ∧
     (stopAudio (initState false false)).nextStartTime = 0 ∧
     stopAudio (stopAudio (initState false false)) = stopAudio (initState false false) ∧
     ((initState false false).sources = [] →
       stopAudio (initState false false) = { initState false false with nextStartTime := 0 })) :=
  ⟨rfl, c2_interrupt_resets (initState false false)⟩

/-- C3: the `turnComplete` branch trims both accumulators, appends one
message per non-empty accumulator (user before model, so 0, 1 or 2
messages), always resets both accumulators, and touches nothing else;
with both accumulators blank it appends nothing. -/
theorem c3_finalize_turn (tNow : Nat) (now : ℚ) (s : AppState) :
    (onmessage tNow now tcMsg s).userBuf = "" ∧
    (onmessage tNow now tcMsg s).modelBuf = "" ∧
    (onmessage tNow now tcMsg s).messages =
      s.messages
        ++ (if jsTrim s.userBuf ≠ "" then
              [⟨msgId Role.user tNow, Role.user, jsTrim s.userBuf, tNow⟩] else [])
        ++ (if jsTrim s.modelBuf ≠ "" then
              [⟨msgId Role.model tNow, Role.model, jsTrim s.modelBuf, tNow⟩] else []) ∧
    (onmessage tNow now tcMsg s).sources = s.sources ∧
    (onmessage tNow now tcMsg s).nextStartTime = s.nextStartTime ∧
    (onmessage tNow now tcMsg s).status = s.status := by
  have : onmessage tNow now tcMsg s = turnCompleteStep tNow tcMsg s := by
    simp only [onmessage]
    rw [inputTransStep_eq, outputTransStep_eq]
    rw [audioStep_none _ _ _ rfl, interruptedStep_false _ _ rfl]
    simp [tcMsg]
  rw [this]
  unfold turnCompleteStep
  simp only [tcMsg]
  split_ifs with h1 h2 h3 <;> simp_all

/-- C5 (amended): on a stream error or an acquisition failure the code
only sets the status to `ERROR`; the stream handle, the audio contexts
and the scheduler's active set are left untouched (not released). -/
theorem c5_error_only_status (s : AppState) :
    (onerror s).status = SessionStatus.ERROR ∧
    (onerror s).sources = s.sources ∧
    (onerror s).nextStartTime = s.nextStartTime ∧
    (onerror s).sessionSet = s.sessionSet ∧
    (onerror s).ctxSet = s.ctxSet ∧
    (onerror s).messages = s.messages ∧
    handleStartCatch s = { s with status := SessionStatus.ERROR } :=
  ⟨rfl, rfl, rfl, rfl, rfl, rfl, rfl⟩

/-- C5 counterexample: an `active → error` transition with a nonempty
active set and live handles releases none of them. -/
theorem c5_error_leaves_resources_cex :
    (onerror ⟨SessionStatus.ACTIVE, [], [⟨0, 1⟩], 1, "", "", true, true⟩).status =
        SessionStatus.ERROR ∧
    (onerror ⟨SessionStatus.ACTIVE, [], [⟨0, 1⟩], 1, "", "", true, true⟩).sources =
        [⟨0, 1⟩] ∧
    (onerror ⟨SessionStatus.ACTIVE, [], [⟨0, 1⟩], 1, "", "", true, true⟩).sessionSet =
        true ∧
    (onerror ⟨SessionStatus.ACTIVE, [], [⟨0, 1⟩], 1, "", "", true, true⟩).ctxSet =
        true :=
  ⟨rfl, rfl, rfl, rfl⟩

/-- C6 (amended): `handleStopSession` is idempotent on the state and on
the list of `close()` calls it makes, and makes no `close()` call when
no session or contexts were ever acquired — but because the refs are
never cleared, a repeated call re-issues the same `close()` calls. -/
theorem c6_stop_behavior (s : AppState) :
    (handleStopSession (handleStopSession s).1).1 = (handleStopSession s).1 ∧
    (handleStopSession (handleStopSession s).1).2 = (handleStopSession s).2 ∧
    (handleStopSession s).1.status = SessionStatus.IDLE ∧
    (s.sessionSet = false → s.ctxSet = false → (handleStopSession s).2 = []) := by
  refine ⟨rfl, rfl, rfl, fun h1 h2 => ?_⟩
  simp [handleStopSession, h1, h2]

/-- C6 witness: stopping twice from the fresh, never-started state. -/
theorem c6_stop_behavior_witness :
    ((initState false false).sessionSet = false) ∧
    ((initState false false).ctxSet = false) ∧
    ((handleStopSession (handleStopSession (initState false false)).1).1 =
        (handleStopSession (initState false false)).1 ∧
     (handleStopSession (handleStopSession (initState false false)).1).2 =
        (handleStopSession (initState false false)).2 ∧
     (handleStopSession (initState false false)).1.status = SessionStatus.IDLE ∧
     ((initState false false).sessionSet = false →
       (initState false false).ctxSet = false →
       (handleStopSession (initState false false)).2 = [])) :=
  ⟨rfl, rfl, c6_stop_behavior (initState false false)⟩

/-- C6 counterexample: after a session was started (both refs set), a
second consecutive stop issues the same `close()` calls again — the
stream handle and both audio contexts are closed a second time. -/
theorem c6_double_close_cex :
    (handleStopSession ⟨SessionStatus.ACTIVE, [], [], 0, "", "", true, true⟩).2 =
      [CloseAction.closeSession, CloseAction.closeInputCtx, CloseAction.closeOutputCtx] ∧
    (handleStopSession
        (handleStopSession ⟨SessionStatus.ACTIVE, [], [], 0, "", "", true, true⟩).1).2 =
      [CloseAction.closeSession, CloseAction.closeInputCtx, CloseAction.closeOutputCtx] :=
  ⟨rfl, rfl⟩

/-- C7 (amended): when the audio payload of a message is malformed, the
`await`ed decode rejects and the rest of the handler is skipped: no
source is added and the `interrupted` flag goes unhandled, but the
cursor has already been advanced to `max(cursor, now)` (line 98 runs
before the decode) and the transcription/turn effects earlier in the
same message persist; the status is unchanged. -/
theorem c7_malformed_abort (t : Nat) (now : ℚ) (m : ServerMessage) (s : AppState)
    (hm : m.audio = some AudioPayload.malformed) (hctx : s.ctxSet = true) :
    onmessage t now m s =
      { turnCompleteStep t m (outputTransStep m (inputTransStep m s)) with
          nextStartTime := max s.nextStartTime now } ∧
    (onmessage t now m s).sources = s.sources ∧
    (onmessage t now m s).status = s.status ∧
    (onmessage t now m s).nextStartTime = max s.nextStartTime now := by
  have h1 := inputTransStep_eq m s
  have h2 := outputTransStep_eq m (inputTransStep m s)
  have hp := turnCompleteStep_preserve t m (outputTransStep m (inputTransStep m s))
  have hc3 : (turnCompleteStep t m (outputTransStep m (inputTransStep m s))).ctxSet = true := by
    rw [hp.2.2.2.1, h2]; simp [h1, hctx]
  have hnst : (turnCompleteStep t m (outputTransStep m (inputTransStep m s))).nextStartTime =
      s.nextStartTime := by
    rw [hp.2.1, h2]; simp [h1]
  have hsrc : (turnCompleteStep t m (outputTransStep m (inputTransStep m s))).sources =
      s.sources := by
    rw [hp.1, h2]; simp [h1]
  have hst : (turnCompleteStep t m (outputTransStep m (inputTransStep m s))).status =
      s.status := by
    rw [hp.2.2.1, h2]; simp [h1]
  have main : onmessage t now m s =
      { turnCompleteStep t m (outputTransStep m (inputTransStep m s)) with
          nextStartTime := max s.nextStartTime now } := by
    simp only [onmessage]
    rw [audioStep_malformed now m _ hm hc3]
    simp [hnst]
  refine ⟨main, ?_, ?_, ?_⟩ <;> rw [main] <;> simp [hsrc, hst]

/-- C7 witness: a malformed chunk in an otherwise empty message, with
the contexts live. -/
theorem c7_malformed_abort_witness :
    ((⟨none, none, false, some AudioPayload.malformed, false⟩ : ServerMessage).audio =
        some AudioPayload.malformed) ∧
    ((initState false true).ctxSet = true) ∧
    (onmessage 0 5 ⟨none, none, false, some AudioPayload.malformed, false⟩
        (initState false true) =
      { turnCompleteStep 0 ⟨none, none, false, some AudioPayload.malformed, false⟩
          (outputTransStep ⟨none, none, false, some AudioPayload.malformed, false⟩
            (inputTransStep ⟨none, none, false, some AudioPayload.malformed, false⟩
              (initState false true))) with
          nextStartTime := max (initState false true).nextStartTime 5 } ∧
     (onmessage 0 5 ⟨none, none, false, some AudioPayload.malformed, false⟩
        (initState false true)).sources = (initState false true).sources ∧
     (onmessage 0 5 ⟨none, none, false, some AudioPayload.malformed, false⟩
        (initState false true)).status = (initState false true).status ∧
     (onmessage 0 5 ⟨none, none, false, some AudioPayload.malformed, false⟩
        (initState false true)).nextStartTime =
        max (initState false true).nextStartTime 5) :=
  ⟨rfl, rfl, c7_malformed_abort 0 5 _ _ rfl rfl⟩

/-- C7 counterexample: a malformed payload does NOT leave the state
exactly as before the message: the cursor has moved to
`max(cursor, now) = 5`, a fragment in the same message stays appended,
and the `interrupted` flag in the same message goes unhandled (the
active set is not cleared). -/
theorem c7_malformed_cex :
    (onmessage 0 5 ⟨some "x", none, false, some AudioPayload.malformed, true⟩
        ⟨SessionStatus.ACTIVE, [], [⟨0, 1⟩], 0, "", "", true, true⟩).nextStartTime = 5 ∧
    (onmessage 0 5 ⟨some "x", none, false, some AudioPayload.malformed, true⟩
        ⟨SessionStatus.ACTIVE, [], [⟨0, 1⟩], 0, "", "", true, true⟩).userBuf = "x" ∧
    (onmessage 0 5 ⟨some "x", none, false, some AudioPayload.malformed, true⟩
        ⟨SessionStatus.ACTIVE, [], [⟨0, 1⟩], 0, "", "", true, true⟩).sources = [⟨0, 1⟩] ∧
    (5 : ℚ) ≠ 0 := by
  refine ⟨?_, ?_, ?_, by norm_num⟩ <;>
    simp [onmessage, inputTransStep, outputTransStep, turnCompleteStep, audioStep,
      interruptedStep]

/-- C4 counterexample: enqueue a one-second chunk at clock `0`; when the
clock later reads `2` the source has long finished playing, yet it is
still in the active set (the code registers no completion callback), so
the set does not contain only not-yet-finished sources. -/
theorem c4_completion_cex :
    (runEnqueues [(0, 1)] (initState false true)).sources = [⟨0, 1⟩] ∧
    (onmessage 0 2 emptyMsg (runEnqueues [(0, 1)] (initState false true))).sources =
      [⟨0, 1⟩] ∧
    (0 : ℚ) + 1 < 2 := by
  refine ⟨?_, ?_, by norm_num⟩ <;>
    simp [runEnqueues, onmessage, audioMsg, emptyMsg, inputTransStep, outputTransStep,
      turnCompleteStep, audioStep, interruptedStep, initState]

/-- C4 (amended): the code registers no completion callback, so natural
completion never removes a source from the active set and no in-flight
completion can re-add one: immediately after `interrupt()` the set is
empty and stays empty across any message without an audio payload, and
without an interruption a source, once registered, stays registered. -/
theorem c4_no_completion_removal (t : Nat) (now : ℚ) (m : ServerMessage) (s : AppState)
    (hm : m.audio = none) :
    (onmessage t now m (stopAudio s)).sources = [] ∧
    (m.interrupted = false → (onmessage t now m s).sources = s.sources) := by
  have key : ∀ u : AppState, (onmessage t now m u).sources = if m.interrupted then [] else u.sources := by
    intro u
    have hp := turnCompleteStep_preserve t m (outputTransStep m (inputTransStep m u))
    have hsrc : (turnCompleteStep t m (outputTransStep m (inputTransStep m u))).sources =
        u.sources := by
      rw [hp.1, outputTransStep_eq]; simp [inputTransStep_eq]
    simp only [onmessage]
    rw [audioStep_none _ _ _ hm]
    cases hi : m.interrupted <;> simp [interruptedStep, hi, stopAudio, hsrc]
  constructor
  · rw [key]
    cases hi : m.interrupted <;> simp [stopAudio]
  · intro hi
    rw [key, hi]
    simp

/-- C4 witness: an empty message after an interrupt, and a fragment-only
message leaving the active set alone. -/
theorem c4_no_completion_removal_witness :
    (emptyMsg.audio = none) ∧
    ((onmessage 0 2 emptyMsg
        (stopAudio ⟨SessionStatus.ACTIVE, [], [⟨0, 1⟩], 1, "", "", true, true⟩)).sources = [] ∧
     (emptyMsg.interrupted = false →
       (onmessage 0 2 emptyMsg
          ⟨SessionStatus.ACTIVE, [], [⟨0, 1⟩], 1, "", "", true, true⟩).sources =
         (⟨SessionStatus.ACTIVE, [], [⟨0, 1⟩], 1, "", "", true, true⟩ : AppState).sources)) :=
  ⟨rfl, c4_no_completion_removal 0 2 emptyMsg _ rfl⟩

/-! ### Status independence of the message handler -/

theorem inputTransStep_status (m : ServerMessage) (s : AppState) (st : SessionStatus) :
    inputTransStep m { s with status := st } = { inputTransStep m s with status := st } := by
  rw [inputTransStep_eq, inputTransStep_eq]

theorem outputTransStep_status (m : ServerMessage) (s : AppState) (st : SessionStatus) :
    outputTransStep m { s with status := st } = { outputTransStep m s with status := st } := by
  rw [outputTransStep_eq, outputTransStep_eq]

theorem turnCompleteStep_status (t : Nat) (m : ServerMessage) (s : AppState)
    (st : SessionStatus) :
    turnCompleteStep t m { s with status := st } =
      { turnCompleteStep t m s with status := st } := by
  unfold turnCompleteStep
  cases m.turnComplete <;> simp

theorem audioStep_status (now : ℚ) (m : ServerMessage) (s : AppState) (st : SessionStatus) :
    audioStep now m { s with status := st } =
      ({ (audioStep now m s).1 with status := st }, (audioStep now m s).2) := by
  cases ha : m.audio with
  | none => simp [audioStep, ha]
  | some p =>
    cases p <;> by_cases hc : s.ctxSet <;> simp [audioStep, ha, hc]

theorem interruptedStep_status (m : ServerMessage) (s : AppState) (st : SessionStatus) :
    interruptedStep m { s with status := st } = { interruptedStep m s with status := st } := by
  cases hi : m.interrupted <;> simp [interruptedStep, hi, stopAudio]

theorem audioStep_fst_status (now : ℚ) (m : ServerMessage) (s : AppState) :
    (audioStep now m s).1.status = s.status := by
  cases ha : m.audio with
  | none => simp [audioStep, ha]
  | some p =>
    cases p <;> by_cases hc : s.ctxSet <;> simp [audioStep, ha, hc]

theorem interruptedStep_status_eq (m : ServerMessage) (s : AppState) :
    (interruptedStep m s).status = s.status := by
  cases hi : m.interrupted <;> simp [interruptedStep, hi, stopAudio]

/-- C8 (amended): the handler never reads the session status, so a
message arriving while not `active` is NOT ignored: it is processed
exactly as when active.  Formally, `onmessage` commutes with replacing
the status, and never changes the status. -/
theorem c8_status_independent (t : Nat) (now : ℚ) (m : ServerMessage) (s : AppState)
    (st : SessionStatus) :
    onmessage t now m { s with status := st } = { onmessage t now m s with status := st } ∧
    (onmessage t now m s).status = s.status := by
  constructor
  · simp only [onmessage]
    rw [inputTransStep_status, outputTransStep_status, turnCompleteStep_status,
      audioStep_status]
    cases hb : (audioStep now m
        (turnCompleteStep t m (outputTransStep m (inputTransStep m s)))).2 <;>
      simp [hb, interruptedStep_status]
  · simp only [onmessage]
    cases hb : (audioStep now m
        (turnCompleteStep t m (outputTransStep m (inputTransStep m s)))).2 <;>
      simp only [hb, if_true, if_false, Bool.false_eq_true, interruptedStep_status_eq] <;>
      rw [audioStep_fst_status,
        (turnCompleteStep_preserve t m (outputTransStep m (inputTransStep m s))).2.2.1,
        outputTransStep_eq] <;>
      simp [inputTransStep_eq]

/-- C8 counterexample: a transcription fragment arriving in the initial
`IDLE` state (before any session is active) is appended to the user
accumulator rather than ignored. -/
theorem c8_not_ignored_cex :
    (initState false false).status = SessionStatus.IDLE ∧
    (onmessage 0 0 ⟨some "x", none, false, none, false⟩ (initState false false)).userBuf =
      "x" ∧
    "x" ≠ "" :=
  ⟨rfl, rfl, by decide⟩

/-! ### The gapless-scheduling invariant -/

/-- Invariant of the playback scheduler: every registered source ends by
the cursor, consecutive sources are adjacent-compatible, and durations
are nonnegative. -/
def schedInv (s : AppState) : Prop :=
  endsLe s.nextStartTime s.sources ∧
  List.Chain' schedR s.sources ∧
  ∀ src ∈ s.sources, 0 ≤ src.duration

theorem schedInv_step (t : Nat) (now d : ℚ) (s : AppState) (hctx : s.ctxSet = true)
    (hd : 0 ≤ d) (h : schedInv s) : schedInv (onmessage t now (audioMsg d) s) := by
  obtain ⟨h1, h2, h3⟩ := h
  rw [enqueue_eq t now d s hctx]
  refine ⟨?_, ?_, ?_⟩
  · intro src hsrc
    simp only [List.mem_append, List.mem_singleton] at hsrc
    rcases hsrc with hsrc | rfl
    · have := h1 src hsrc
      have hle : s.nextStartTime ≤ max s.nextStartTime now := le_max_left _ _
      simp only []
      linarith
    · exact le_rfl
  · simp only []
    rw [List.chain'_append]
    refine ⟨h2, List.chain'_singleton _, ?_⟩
    intro x hx y hy
    simp only [List.head?_cons, Option.mem_def, Option.some.injEq] at hy
    subst hy
    obtain ⟨hne, rfl⟩ := List.mem_getLast?_eq_getLast hx
    have hmem := List.getLast_mem hne
    have hend := h1 _ hmem
    have hdur := h3 _ hmem
    have hle : s.nextStartTime ≤ max s.nextStartTime now := le_max_left _ _
    constructor
    · simp only []
      linarith
    · simp only []
      linarith
  · intro src hsrc
    simp only [List.mem_append, List.mem_singleton] at hsrc
    rcases hsrc with hsrc | rfl
    · exact h3 src hsrc
    · exact hd

theorem schedInv_run (ps : List (ℚ × ℚ)) :
    ∀ s : AppState, s.ctxSet = true → (∀ p ∈ ps, 0 ≤ p.2) → schedInv s →
      schedInv (runEnqueues ps s) := by
  induction ps with
  | nil => intro s _ _ h; exact h
  | cons p rest ih =>
    intro s hctx hd h
    have hctx' : (onmessage 0 p.1 (audioMsg p.2) s).ctxSet = true := by
      rw [enqueue_eq 0 p.1 p.2 s hctx]; exact hctx
    exact ih _ hctx' (fun q hq => hd q (List.mem_cons_of_mem _ hq))
      (schedInv_step 0 p.1 p.2 s hctx (hd p (List.mem_cons_self _ _)) h)

/-- C1: an audio payload is scheduled at `max(cursor, now)` and the
cursor advances to start time plus duration; consequently, over any
sequence of enqueues with nonnegative durations from an empty active
set, each source starts no earlier than the previous one's start plus
its duration, and start times are non-decreasing. -/
theorem c1_enqueue_scheduling :
    (∀ (t : Nat) (now d : ℚ) (s : AppState), s.ctxSet = true →
      onmessage t now (audioMsg d) s =
        { s with sources := s.sources ++ [⟨max s.nextStartTime now, d⟩],
                 nextStartTime := max s.nextStartTime now + d }) ∧
    (∀ (ps : List (ℚ × ℚ)) (s : AppState), s.ctxSet = true → s.sources = [] →
      (∀ p ∈ ps, 0 ≤ p.2) →
      List.Chain' (fun a b => a.startTime + a.duration ≤ b.startTime)
        (runEnqueues ps s).sources ∧
      List.Chain' (fun a b => a.startTime ≤ b.startTime) (runEnqueues ps s).sources) := by
  refine ⟨enqueue_eq, fun ps s hctx hnil hd => ?_⟩
  have hinv : schedInv s := by
    refine ⟨?_, ?_, ?_⟩ <;> simp [endsLe, hnil]
  have h := (schedInv_run ps s hctx hd hinv).2
  exact ⟨h.1.imp fun a b hab => hab.1, h.1.imp fun a b hab => hab.2⟩

/-- C1 witness: the spec's scenario — a 1-second chunk at clock 0, then
a second chunk arriving while the clock reads 0.3. -/
theorem c1_enqueue_scheduling_witness :
    ((initState false true).ctxSet = true) ∧
    ((initState false true).sources = []) ∧
    (∀ p ∈ [((0 : ℚ), (1 : ℚ)), (3/10, 1)], 0 ≤ p.2) ∧
    (List.Chain' (fun a b => a.startTime + a.duration ≤ b.startTime)
        (runEnqueues [((0 : ℚ), (1 : ℚ)), (3/10, 1)] (initState false true)).sources ∧
     List.Chain' (fun a b => a.startTime ≤ b.startTime)
        (runEnqueues [((0 : ℚ), (1 : ℚ)), (3/10, 1)] (initState false true)).sources) :=
  ⟨rfl, rfl, by norm_num,
    c1_enqueue_scheduling.2 [((0 : ℚ), (1 : ℚ)), (3/10, 1)] (initState false true)
      rfl rfl (by norm_num)⟩

/-- C9 counterexample: two turns finalized during the same `Date.now()`
millisecond produce two distinct user messages with the SAME id `u-0`,
so ids are not unique within the log. -/
theorem c9_id_collision_cex :
    (onmessage 0 0 ⟨some "b", none, true, none, false⟩
        (onmessage 0 0 tcMsg ⟨SessionStatus.IDLE, [], [], 0, "a", "", false, false⟩)).messages =
      [⟨"u-0", Role.user, "a", 0⟩, ⟨"u-0", Role.user, "b", 0⟩] ∧
    (⟨"u-0", Role.user, "a", 0⟩ : ChatMessage) ≠ ⟨"u-0", Role.user, "b", 0⟩ := by
  constructor
  · decide
  · decide

/-- C9 (amended): ids collide exactly when both the role prefix and the
`Date.now()` timestamp coincide: any two messages whose role or
finalization timestamp differ have different ids (and every message the
turn boundary appends carries the id `msgId` of its role and
timestamp). -/
theorem c9_id_unique_distinct_times (t1 t2 : Nat) (r1 r2 : Role)
    (h : r1 ≠ r2 ∨ t1 ≠ t2) :
    msgId r1 t1 ≠ msgId r2 t2 ∧
    ∀ (t : Nat) (m : ServerMessage) (s : AppState),
      ∀ msg ∈ (turnCompleteStep t m s).messages,
        msg ∈ s.messages ∨ msg.id = msgId msg.role t := by
  constructor
  · intro heq
    rcases msgId_inj heq with ⟨hr, ht⟩
    rcases h with h | h
    · exact h hr
    · exact h ht
  · intro t m s msg hmsg
    unfold turnCompleteStep at hmsg
    by_cases hm : m.turnComplete = true
    case neg => rw [if_neg hm] at hmsg; exact Or.inl hmsg
    case pos =>
      rw [if_pos hm] at hmsg
      simp only [ne_eq] at hmsg
      split_ifs at hmsg <;>
        (try simp only [List.mem_append, List.mem_singleton, List.not_mem_nil, or_false,
          false_or] at hmsg) <;>
        first
          | exact Or.inl hmsg
          | (rcases hmsg with (hmsg | rfl) | rfl
             · exact Or.inl hmsg
             · exact Or.inr rfl
             · exact Or.inr rfl)
          | (rcases hmsg with hmsg | rfl
             · exact Or.inl hmsg
             · exact Or.inr rfl)

/-- C9 witness: within one finalization, the user and model ids differ. -/
theorem c9_id_unique_distinct_times_witness :
    (Role.user ≠ Role.model ∨ (0 : Nat) ≠ 0) ∧
    (msgId Role.user 0 ≠ msgId Role.model 0 ∧
     ∀ (t : Nat) (m : ServerMessage) (s : AppState),
       ∀ msg ∈ (turnCompleteStep t m s).messages,
         msg ∈ s.messages ∨ msg.id = msgId msg.role t) :=
  ⟨Or.inl (by decide),
    c9_id_unique_distinct_times 0 0 Role.user Role.model (Or.inl (by decide))⟩

/-- C10: within one message the handler runs in source order — a
fragment carried alongside `turnComplete` lands in that same turn's
finalized message; audio is scheduled after finalization; and
`interrupted` is handled last, cancelling even the source enqueued by
the same message (with `interrupted` absent that source stays). -/
theorem c10_field_order (t : Nat) (now d : ℚ) (f : String) (s : AppState)
    (hctx : s.ctxSet = true) :
    (onmessage t now ⟨some f, none, true, some (AudioPayload.good d), true⟩ s).messages =
      s.messages
        ++ (if jsTrim (s.userBuf ++ f) ≠ "" then
              [⟨msgId Role.user t, Role.user, jsTrim (s.userBuf ++ f), t⟩] else [])
        ++ (if jsTrim s.modelBuf ≠ "" then
              [⟨msgId Role.model t, Role.model, jsTrim s.modelBuf, t⟩] else []) ∧
    (onmessage t now ⟨some f, none, true, some (AudioPayload.good d), true⟩ s).sources =
      [] ∧
    (onmessage t now ⟨some f, none, true, some (AudioPayload.good d), true⟩ s).nextStartTime =
      0 ∧
    (onmessage t now ⟨some f, none, true, some (AudioPayload.good d), false⟩ s).sources =
      s.sources ++ [⟨max s.nextStartTime now, d⟩] := by
  refine ⟨?_, ?_, ?_, ?_⟩
  · simp only [onmessage, inputTransStep, outputTransStep, audioStep, interruptedStep,
      stopAudio, turnCompleteStep]
    split_ifs <;> simp_all
  · simp [onmessage, inputTransStep, outputTransStep, audioStep, interruptedStep,
      stopAudio, turnCompleteStep, hctx]
  · simp [onmessage, inputTransStep, outputTransStep, audioStep, interruptedStep,
      stopAudio, turnCompleteStep, hctx]
  · simp [onmessage, inputTransStep, outputTransStep, audioStep, interruptedStep,
      stopAudio, turnCompleteStep, hctx]

/-- C10 witness: a concrete message carrying a fragment, the turn
boundary, a chunk and the interruption flag at once. -/
theorem c10_field_order_witness :
    ((initState false true).ctxSet = true) ∧
    ((onmessage 0 0 ⟨some "Hi", none, true, some (AudioPayload.good 1), true⟩
        (initState false true)).messages =
      (initState false true).messages
        ++ (if jsTrim ((initState false true).userBuf ++ "Hi") ≠ "" then
              [⟨msgId Role.user 0, Role.user,
                jsTrim ((initState false true).userBuf ++ "Hi"), 0⟩] else [])
        ++ (if jsTrim (initState false true).modelBuf ≠ "" then
              [⟨msgId Role.model 0, Role.model,
                jsTrim (initState false true).modelBuf, 0⟩] else []) ∧
     (onmessage 0 0 ⟨some "Hi", none, true, some (AudioPayload.good 1), true⟩
        (initState false true)).sources = [] ∧
     (onmessage 0 0 ⟨some "Hi", none, true, some (AudioPayload.good 1), true⟩
        (initState false true)).nextStartTime = 0 ∧
     (onmessage 0 0 ⟨some "Hi", none, true, some (AudioPayload.good 1), false⟩
        (initState false true)).sources =
       (initState false true).sources
         ++ [⟨max (initState false true).nextStartTime 0, 1⟩]) :=
  ⟨rfl, c10_field_order 0 0 1 "Hi" (initState false true) rfl⟩

end ZephyrApp
